import Mathlib

/-
Verification of the devstats core: the generic typed record store
(flat-file variant and the relational store's schema inference) and the
interval-based anonymization/aggregation service.

Shallow embedding conventions:
* `time.Time` is modelled as `Int` (a point on an absolute time line, e.g.
  Unix seconds); `t.Equal u` is `t = u`, `t.After u` is `u < t`,
  `t.Before u` is `t < u`.
* Go `int64` counters are modelled as `Int` (the counters here are bounded
  by list lengths, far from overflow).
* The in-memory state of `FileStore[T]` is its `data []T` slice, modelled
  as `List T`; file I/O performed by `persist` is not part of the
  in-memory state transition.
* Go `[]any` values flowing through `Store.FindBetween` / `Anonymize` are
  modelled by the sum type `GoAny` of the record types that occur in the
  repository, plus a constructor for any other dynamic type.
* Go map iteration order is unspecified; the model fixes key-insertion
  order for the language-count map, which is one admissible order.
-/

namespace Devstats

/-- Model of Go `time.Time` as a point on an absolute integer time line. -/
abbrev GoTime := Int

/-- `domain.KeypressData` (src/internal/domain/keypress.go). -/
structure KeypressData where
  Key : String
  Timestamp : GoTime
deriving DecidableEq, Repr

/-- `domain.KeypressAnonymousStats` (src/internal/domain/keypress.go). -/
structure KeypressAnonymousStats where
  Timestamp : GoTime
  KeypressesCount : Int
deriving DecidableEq, Repr

/-- `domain.FileChangeData` (src/unnamed/part_003). -/
structure FileChangeData where
  Language : String
  Timestamp : GoTime
deriving DecidableEq, Repr

/-- `domain.FileChangeAnonymousStats` (src/unnamed/part_003). -/
structure FileChangeAnonymousStats where
  Timestamp : GoTime
  Language : String
  ChangesInSpan : Int
deriving DecidableEq, Repr

/-- A Go `any` (interface value) as it occurs in this repository:
it may hold a `KeypressData`, a `FileChangeData`, or a value of any
other dynamic type. -/
inductive GoAny where
  | keypress (k : KeypressData)
  | filechange (f : FileChangeData)
  | otherValue
deriving DecidableEq, Repr

/-- The type assertion `record.(KeypressData)` succeeds on this value. -/
def GoAny.isKeypressData : GoAny → Bool
  | GoAny.keypress _ => true
  | _ => false

/-- `KeypressData.Anonymize` (src/internal/domain/keypress.go lines 32-50):
loop over `records`, incrementing `keyCount` for each element whose type
assertion to `KeypressData` succeeds, then return a one-element slice
holding the interval start and the count. -/
def KeypressData.Anonymize (records : List GoAny) (intervalStart : GoTime) :
    List KeypressAnonymousStats :=
  let keyCount : Int := records.foldl
    (fun c record => match record with
      | GoAny.keypress _ => c + 1
      | _ => c) 0
  [{ Timestamp := intervalStart, KeypressesCount := keyCount }]

/-- One increment step of the Go map `languageCounts[change.Language]++`,
on an association-list model of the map keeping key-insertion order. -/
def bumpLanguageCount (m : List (String × Int)) (lang : String) :
    List (String × Int) :=
  match m with
  | [] => [(lang, 1)]
  | (l, c) :: rest =>
    if l = lang then (l, c + 1) :: rest
    else (l, c) :: bumpLanguageCount rest lang

/-- The `languageCounts` map built by the counting loop of
`FileChangeData.Anonymize`: elements failing the type assertion to
`FileChangeData` are skipped. -/
def FileChangeData.languageCounts (records : List GoAny) :
    List (String × Int) :=
  records.foldl
    (fun m record => match record with
      | GoAny.filechange change => bumpLanguageCount m change.Language
      | _ => m) []

/-- `FileChangeData.Anonymize` (src/unnamed/part_003 lines 33-55):
count changes per language, then emit one `FileChangeAnonymousStats`
per language, stamped with the interval start. -/
def FileChangeData.Anonymize (records : List GoAny) (intervalStart : GoTime) :
    List FileChangeAnonymousStats :=
  (FileChangeData.languageCounts records).map
    (fun p => { Timestamp := intervalStart, Language := p.1,
                ChangesInSpan := p.2 })

namespace FileStore

/-- `FileStore[T].Save` (src/internal/storage/storage.go): append the
record to the in-memory slice (then persist the whole collection). -/
def save {T : Type} (st : List T) (x : T) : List T := st ++ [x]

/-- `FileStore[T].Get` (src/internal/storage/storage.go lines 423-428):
return the in-memory slice. -/
def get {T : Type} (st : List T) : List T := st

/-- `FileStore[T].FindBetween` (src/internal/storage/storage.go lines
432-474): linear scan keeping each item whose `Timestamp` field satisfies
`(timestamp.Equal(startTime) || timestamp.After(startTime)) &&
(timestamp.Equal(endTime) || timestamp.Before(endTime))`.
`ts` plays the role of the reflective `Timestamp` field access. -/
def findBetween {T : Type} (ts : T → GoTime) (startTime endTime : GoTime)
    (st : List T) : List T :=
  st.filter (fun item =>
    ((ts item == startTime) || decide (startTime < ts item)) &&
    ((ts item == endTime) || decide (ts item < endTime)))

end FileStore

/-- The state of the backing file at `FileStore` construction time:
the file may be missing, unreadable, or present with contents whose
JSON decoding either yields a record list or fails. -/
inductive FileState (T : Type) where
  | missing
  | readFailure (msg : String)
  | present (decoded : Except String (List T))

/-- `NewFileStore[T]` (src/internal/storage/storage.go lines 395-414):
start empty; if the file exists, read and decode it, propagating read
and decode errors; the resulting record list is the initial collection. -/
def NewFileStore {T : Type} : FileState T → Except String (List T)
  | FileState.missing => Except.ok []
  | FileState.readFailure msg => Except.error msg
  | FileState.present (Except.ok records) => Except.ok records
  | FileState.present (Except.error msg) => Except.error msg

/-- `anon.Config` (src/unnamed/part_001): `IntervalSize` is a
`time.Duration`, i.e. a signed 64-bit count of nanoseconds. -/
structure Config where
  IntervalSize : Int
deriving DecidableEq, Repr

/-- `anon.NewService` (src/unnamed/part_001 lines 29-43): fail iff
`config.IntervalSize == 0`, otherwise return the constructed service
(modelled by its configuration). -/
def NewService (config : Config) : Except String Config :=
  if config.IntervalSize = 0 then
    Except.error "interval size must be greater than 0"
  else Except.ok config

/-- The save loop of `ProcessInterval` (src/unnamed/part_001 lines 70-74):
save each anonymized record in order; on the first failing `Save`, stop
and return the wrapped error. `saveOk` tells whether a given record's
`Save` call succeeds; the resulting pair is the final target-store state
and the error value (`none` is Go `nil`). -/
def saveAll {T : Type} (saveOk : T → Bool) :
    List T → List T → List T × Option String
  | st, [] => (st, none)
  | st, r :: rest =>
    if saveOk r then saveAll saveOk (st ++ [r]) rest
    else (st, some "failed to save anonymized data")

/-- `Service[S, T].ProcessInterval` (src/unnamed/part_001 lines 46-77)
with a `FileStore[S]` source: fetch the source records in `[a, b]`; if
none, succeed without touching the target store; otherwise anonymize
the fetched records (as `[]any`, via `wrap`) with the interval start and
save each result in order. `ts` is the source type's `Timestamp` field,
`anonymize` the source type's `Anonymize` method. -/
def processInterval {S T : Type} (ts : S → GoTime) (wrap : S → GoAny)
    (anonymize : List GoAny → GoTime → List T) (saveOk : T → Bool)
    (src : List S) (tgt : List T) (a b : GoTime) :
    List T × Option String :=
  let records := FileStore.findBetween ts a b src
  if records.length = 0 then (tgt, none)
  else saveAll saveOk tgt (anonymize (records.map wrap) a)

/-- The anonymized records `ProcessInterval` produces for `[a, b]` before
the save loop runs. -/
def producedRecords {S T : Type} (ts : S → GoTime) (wrap : S → GoAny)
    (anonymize : List GoAny → GoTime → List T)
    (src : List S) (a b : GoTime) : List T :=
  anonymize ((FileStore.findBetween ts a b src).map wrap) a

/-- `ProcessInterval` of the keypress anonymizer service
(`anon.NewService[domain.KeypressData, domain.KeypressAnonymousStats]`). -/
def processIntervalKeypress (saveOk : KeypressAnonymousStats → Bool)
    (src : List KeypressData) (tgt : List KeypressAnonymousStats)
    (a b : GoTime) : List KeypressAnonymousStats × Option String :=
  processInterval KeypressData.Timestamp GoAny.keypress
    KeypressData.Anonymize saveOk src tgt a b

/-- `ProcessInterval` of the file-change anonymizer service
(`anon.NewService[domain.FileChangeData, domain.FileChangeAnonymousStats]`). -/
def processIntervalFileChange (saveOk : FileChangeAnonymousStats → Bool)
    (src : List FileChangeData) (tgt : List FileChangeAnonymousStats)
    (a b : GoTime) : List FileChangeAnonymousStats × Option String :=
  processInterval FileChangeData.Timestamp GoAny.filechange
    FileChangeData.Anonymize saveOk src tgt a b

/-- The kind of a Go struct field's type, as `getSQLType` dispatches on it:
the string kind, the two integer kinds the code names, `float64`, `bool`,
the named type `time.Time`, and any other unmapped type. -/
inductive GoType where
  | stringKind
  | intKind
  | int64Kind
  | float64Kind
  | boolKind
  | timeTimeKind
  | otherKind
deriving DecidableEq, Repr

/-- `getSQLType` (src/internal/storage/storage.go lines 192-208): switch
on the reflected kind; the default case returns DATETIME when the type's
name is `time.Time` and TEXT otherwise. -/
def getSQLType (t : GoType) : String :=
  match t with
  | GoType.stringKind => "TEXT"
  | GoType.intKind => "INTEGER"
  | GoType.int64Kind => "INTEGER"
  | GoType.float64Kind => "REAL"
  | GoType.boolKind => "BOOLEAN"
  | t => if t = GoType.timeTimeKind then "DATETIME" else "TEXT"

/-- The default mapping exactly as the spec words it: text for string,
integer for whole numbers, real for floating point, a timestamp type for
date-time, and text for anything else unmapped (which, per the claim,
includes `bool`). -/
def specDefaultSQLType (t : GoType) : String :=
  match t with
  | GoType.stringKind => "TEXT"
  | GoType.intKind => "INTEGER"
  | GoType.int64Kind => "INTEGER"
  | GoType.float64Kind => "REAL"
  | GoType.timeTimeKind => "DATETIME"
  | _ => "TEXT"

/-- The default mapping amended to record what the code does with `bool`:
as the spec, except that a `bool` field maps to BOOLEAN. -/
def amendedDefaultSQLType (t : GoType) : String :=
  match t with
  | GoType.stringKind => "TEXT"
  | GoType.intKind => "INTEGER"
  | GoType.int64Kind => "INTEGER"
  | GoType.float64Kind => "REAL"
  | GoType.boolKind => "BOOLEAN"
  | GoType.timeTimeKind => "DATETIME"
  | _ => "TEXT"

/- ### Helper lemmas -/

/-- The counting loop of `KeypressData.Anonymize` computes the number of
elements whose type assertion to `KeypressData` succeeds. -/
theorem keypressCount_eq_filterLength (records : List GoAny) (c : Int) :
    records.foldl
      (fun c record => match record with
        | GoAny.keypress _ => c + 1
        | _ => c) c =
      c + ((records.filter GoAny.isKeypressData).length : Int) := by
  induction records generalizing c with
  | nil => simp
  | cons r rest ih =>
    cases r with
    | keypress k =>
      simp only [List.foldl_cons, List.filter_cons, GoAny.isKeypressData,
        if_true, List.length_cons, ih]
      push_cast
      ring
    | filechange f =>
      simp [GoAny.isKeypressData, List.filter_cons, ih]
    | otherValue =>
      simp [GoAny.isKeypressData, List.filter_cons, ih]

/-- Folding `FileStore.save` appends the saved records, in order. -/
theorem foldl_save_eq_append {T : Type} (xs : List T) (acc : List T) :
    xs.foldl FileStore.save acc = acc ++ xs := by
  induction xs generalizing acc with
  | nil => simp
  | cons x rest ih => simp [FileStore.save, ih]

/-- Every record in the target store after the save loop was either
already there or is one of the records handed to the loop. -/
theorem saveAll_mem {T : Type} (saveOk : T → Bool) :
    ∀ (rs st : List T) (r : T),
      r ∈ (saveAll saveOk st rs).1 → r ∈ st ∨ r ∈ rs := by
  intro rs
  induction rs with
  | nil =>
    intro st r h
    exact Or.inl (by simpa [saveAll] using h)
  | cons x rest ih =>
    intro st r h
    by_cases hx : saveOk x
    · simp only [saveAll, hx, if_true] at h
      rcases ih (st ++ [x]) r h with h1 | h2
      · rcases List.mem_append.mp h1 with h3 | h4
        · exact Or.inl h3
        · right
          simp only [List.mem_singleton] at h4
          simp [h4]
      · right
        simp [h2]
    · simp only [saveAll, hx, if_false] at h
      exact Or.inl h

/-- Every stats record `KeypressData.Anonymize` emits carries the
interval start as its timestamp. -/
theorem kpAnonymize_timestamp (records : List GoAny) (a : GoTime) :
    ∀ r ∈ KeypressData.Anonymize records a, r.Timestamp = a := by
  intro r h
  simp only [KeypressData.Anonymize, List.mem_singleton] at h
  simp [h]

/-- Every stats record `FileChangeData.Anonymize` emits carries the
interval start as its timestamp. -/
theorem fcAnonymize_timestamp (records : List GoAny) (a : GoTime) :
    ∀ r ∈ FileChangeData.Anonymize records a, r.Timestamp = a := by
  intro r h
  simp only [FileChangeData.Anonymize, List.mem_map] at h
  rcases h with ⟨p, _, hp⟩
  rw [← hp]

/-- The save loop stops at the first failing save: it appends exactly
the records before the failure, in order, and returns the error. -/
theorem saveAll_stops {T : Type} (saveOk : T → Bool) :
    ∀ (rs st : List T) (i : Nat) (hi : i < rs.length),
      (∀ r ∈ rs.take i, saveOk r = true) →
      saveOk (rs.get ⟨i, hi⟩) = false →
      saveAll saveOk st rs =
        (st ++ rs.take i, some "failed to save anonymized data") := by
  intro rs
  induction rs with
  | nil =>
    intro st i hi
    exact absurd hi (by simp)
  | cons x rest ih =>
    intro st i hi hok hfail
    match i with
    | 0 =>
      have hx : saveOk x = false := hfail
      simp [saveAll, hx]
    | Nat.succ j =>
      have hx : saveOk x = true := hok x (by simp [List.take_succ_cons])
      have hj : j < rest.length := by simpa using hi
      have hrec :=
        ih (st ++ [x]) j hj
          (fun r hr => hok r (by simp [List.take_succ_cons, hr]))
          hfail
      simp only [saveAll, hx, if_true, hrec, List.take_succ_cons]
      simp

/-- The boundary test `(Equal start or After start) and (Equal end or
Before end)` is exactly inclusive membership of `[a, b]`. -/
theorem intervalMem_iff (x a b : Int) :
    (x = a ∨ a < x) ∧ (x = b ∨ x < b) ↔ a ≤ x ∧ x ≤ b := by
  omega

/- ### Claim theorems -/

/-- C1: for the file-backed store, a record of the store is in
`FindBetween a b` iff its timestamp `t` satisfies `a ≤ t ≤ b`, both
boundaries included. -/
theorem c1_findBetween_range_correct {T : Type} (ts : T → GoTime)
    (a b : GoTime) (st : List T) (r : T) (hr : r ∈ st) :
    r ∈ FileStore.findBetween ts a b st ↔ a ≤ ts r ∧ ts r ≤ b := by
  unfold FileStore.findBetween
  simp only [List.mem_filter, hr, true_and, Bool.and_eq_true,
    Bool.or_eq_true, beq_iff_eq, decide_eq_true_eq]
  exact intervalMem_iff (ts r) a b

/-- Witness for C1 at a concrete store and interval. -/
theorem c1_witness :
    (⟨"a", 5⟩ : KeypressData) ∈
        FileStore.findBetween KeypressData.Timestamp 4 6 [⟨"a", 5⟩] ↔
      4 ≤ KeypressData.Timestamp ⟨"a", 5⟩ ∧
        KeypressData.Timestamp ⟨"a", 5⟩ ≤ 6 :=
  c1_findBetween_range_correct KeypressData.Timestamp 4 6
    [⟨"a", 5⟩] ⟨"a", 5⟩ (by decide)

/-- C2: every record in the target store after `ProcessInterval(a, b)`
either predates the call or carries timestamp `a` (the interval start),
for both the keypress and the file-change reductions; in particular every
record the call produced and saved is stamped with the interval start. -/
theorem c2_aggregate_timestamp_pinning
    (saveOkK : KeypressAnonymousStats → Bool)
    (saveOkF : FileChangeAnonymousStats → Bool)
    (srcK : List KeypressData) (srcF : List FileChangeData)
    (tgtK : List KeypressAnonymousStats)
    (tgtF : List FileChangeAnonymousStats) (a b : GoTime) :
    (∀ r ∈ (processIntervalKeypress saveOkK srcK tgtK a b).1,
        r ∈ tgtK ∨ r.Timestamp = a) ∧
      (∀ r ∈ (processIntervalFileChange saveOkF srcF tgtF a b).1,
        r ∈ tgtF ∨ r.Timestamp = a) := by
  constructor
  · intro r h
    unfold processIntervalKeypress processInterval at h
    by_cases hlen :
        (FileStore.findBetween KeypressData.Timestamp a b srcK).length = 0
    · simp only [hlen, if_true] at h
      exact Or.inl h
    · simp only [hlen, if_false] at h
      rcases saveAll_mem saveOkK _ _ _ h with h1 | h2
      · exact Or.inl h1
      · exact Or.inr (kpAnonymize_timestamp _ _ _ h2)
  · intro r h
    unfold processIntervalFileChange processInterval at h
    by_cases hlen :
        (FileStore.findBetween FileChangeData.Timestamp a b srcF).length = 0
    · simp only [hlen, if_true] at h
      exact Or.inl h
    · simp only [hlen, if_false] at h
      rcases saveAll_mem saveOkF _ _ _ h with h1 | h2
      · exact Or.inl h1
      · exact Or.inr (fcAnonymize_timestamp _ _ _ h2)

/-- Witness for C2 at a concrete interval with one source keypress. -/
theorem c2_witness :
    (⟨5, 1⟩ : KeypressAnonymousStats) ∈ ([] : List KeypressAnonymousStats) ∨
      KeypressAnonymousStats.Timestamp ⟨5, 1⟩ = 5 :=
  (c2_aggregate_timestamp_pinning (fun _ => true) (fun _ => true)
      [⟨"x", 5⟩] [] [] [] 5 5).1 ⟨5, 1⟩ (by decide)

/-- C3: when `FindBetween` over the source store returns no records,
`ProcessInterval` returns success, saves nothing, and leaves the target
store unchanged. -/
theorem c3_empty_interval_noop {S T : Type} (ts : S → GoTime)
    (wrap : S → GoAny) (anonymize : List GoAny → GoTime → List T)
    (saveOk : T → Bool) (src : List S) (tgt : List T) (a b : GoTime)
    (h : FileStore.findBetween ts a b src = []) :
    processInterval ts wrap anonymize saveOk src tgt a b = (tgt, none) := by
  simp [processInterval, h]

/-- Witness for C3 at an empty source store. -/
theorem c3_witness :
    processInterval KeypressData.Timestamp GoAny.keypress
        KeypressData.Anonymize (fun _ => true) ([] : List KeypressData)
        [] 0 1 =
      ([], none) :=
  c3_empty_interval_noop KeypressData.Timestamp GoAny.keypress
    KeypressData.Anonymize (fun _ => true) [] [] 0 1 rfl

/-- C4: when the saves of the first `i` produced records succeed and the
save of record `i` fails, `ProcessInterval` returns the wrapped error,
exactly those first `i` records are appended to the target store in
order, and no further record is saved. -/
theorem c4_save_failure_stops {S T : Type} (ts : S → GoTime)
    (wrap : S → GoAny) (anonymize : List GoAny → GoTime → List T)
    (saveOk : T → Bool) (src : List S) (tgt : List T) (a b : GoTime)
    (hne : FileStore.findBetween ts a b src ≠ []) (i : Nat)
    (hi : i < (producedRecords ts wrap anonymize src a b).length)
    (hok : ∀ r ∈ (producedRecords ts wrap anonymize src a b).take i,
      saveOk r = true)
    (hfail :
      saveOk ((producedRecords ts wrap anonymize src a b).get ⟨i, hi⟩) =
        false) :
    processInterval ts wrap anonymize saveOk src tgt a b =
      (tgt ++ (producedRecords ts wrap anonymize src a b).take i,
        some "failed to save anonymized data") := by
  have hlen : ¬ (FileStore.findBetween ts a b src).length = 0 := by
    simpa [List.length_eq_zero] using hne
  unfold processInterval
  simp only [hlen, if_false]
  exact saveAll_stops saveOk _ tgt i hi hok hfail

/-- Witness for C4: a single produced record whose save fails at index 0. -/
theorem c4_witness :
    processInterval KeypressData.Timestamp GoAny.keypress
        KeypressData.Anonymize (fun _ => false) [⟨"x", 5⟩] [] 5 5 =
      ([] ++ (producedRecords KeypressData.Timestamp GoAny.keypress
          KeypressData.Anonymize [⟨"x", 5⟩] 5 5).take 0,
        some "failed to save anonymized data") :=
  c4_save_failure_stops KeypressData.Timestamp GoAny.keypress
    KeypressData.Anonymize (fun _ => false) [⟨"x", 5⟩] [] 5 5
    (by decide) 0 (by decide) (by decide) (by decide)

/-- C5 counterexample: the claim says every field type other than string,
whole-number, floating-point and date-time maps to text, but the code
maps a `bool` field to BOOLEAN, not TEXT. -/
theorem c5_counterexample :
    getSQLType GoType.boolKind ≠ specDefaultSQLType GoType.boolKind := by
  decide

/-- C5 amended: the inferred default storage type follows the spec's
mapping extended with a `bool` case: string to TEXT, `int` and `int64`
to INTEGER, `float64` to REAL, `bool` to BOOLEAN, `time.Time` to
DATETIME, and any other unmapped type to TEXT. -/
theorem c5_amended_default_mapping :
    ∀ t : GoType, getSQLType t = amendedDefaultSQLType t := by
  intro t
  cases t <;> rfl

/-- C6: with source records at 09:00:01, 09:03:00, 09:11:00 (in seconds
since midnight) holding languages go, go, rust, processing the interval
from 09:00:00 to 09:10:00 saves exactly one aggregate: timestamp
09:00:00, language go, count 2. -/
theorem c6_concrete_scenario :
    processIntervalFileChange (fun _ => true)
        [⟨"go", 32401⟩, ⟨"go", 32580⟩, ⟨"rust", 33060⟩] [] 32400 33000 =
      ([⟨32400, "go", 2⟩], none) := by
  decide

/-- C7: after any sequence of saves into a freshly constructed (empty)
file-backed store, `Get` returns exactly the saved records, each equal
to the original, in insertion order. -/
theorem c7_roundtrip {T : Type} (xs : List T) :
    FileStore.get (xs.foldl FileStore.save []) = xs := by
  simp [FileStore.get, foldl_save_eq_append]

/-- C8: flat-file store construction succeeds with an empty collection
when the file is missing, adopts the decoded records when decoding
succeeds, and fails when decoding fails. -/
theorem c8_construction_cases {T : Type} :
    NewFileStore (FileState.missing : FileState T) = Except.ok [] ∧
      (∀ records : List T,
        NewFileStore (FileState.present (Except.ok records)) =
          Except.ok records) ∧
      (∀ msg : String,
        NewFileStore (FileState.present (Except.error msg) : FileState T) =
          Except.error msg) :=
  ⟨rfl, fun _ => rfl, fun _ => rfl⟩

/-- C9: `KeypressData.Anonymize` returns exactly one stats record, whose
count is the number of batch elements that are `KeypressData` values
(other dynamic types are excluded) and whose timestamp is the interval
start. -/
theorem c9_keypress_anonymize_shape (records : List GoAny)
    (intervalStart : GoTime) :
    KeypressData.Anonymize records intervalStart =
      [{ Timestamp := intervalStart,
         KeypressesCount :=
           ((records.filter GoAny.isKeypressData).length : Int) }] := by
  unfold KeypressData.Anonymize
  rw [keypressCount_eq_filterLength]
  simp

/-- C10: `NewService` succeeds exactly when the interval size is nonzero;
negative sizes are accepted because the check is an equality test against
zero. -/
theorem c10_newservice_zero_only (n : Int) :
    NewService ⟨n⟩ = Except.ok ⟨n⟩ ↔ n ≠ 0 := by
  unfold NewService
  by_cases h : n = 0 <;> simp [h]

end Devstats
